import Mathlib

/-!
# Deskmate-AI: verification of the adaptive command-resolution engine

Shallow embedding of the core of the Deskmate-AI repository:

* `src/backend/services/database.py` — the SQLite mapping store,
* `src/backend/services/undo_redo.py` — the undo/redo history engine,
* `src/backend/core/mapper.py` — the adaptive resolver,
* `src/backend/core/learner.py` — the learner,
* `src/backend/core/command_handler.py` — the command handler.

Python dicts of fixed shape become Lean structures; the external libraries
consumed by the code (`fuzzywuzzy.fuzz.token_set_ratio`, `re.search`,
dynamically imported automation functions, permission checks) become explicit
function parameters of an environment record, since the engine only observes
their return values.  Python lists used as stacks (append/pop at the end) are
modeled as Lean lists with the top of the stack at the head.
-/

namespace Deskmate

/-! ## Mapping store (src/backend/services/database.py)

The `mappings` table has columns `(command_text TEXT UNIQUE, action_name TEXT)`.
We model the table as a list of rows in insertion order. -/

abbrev MappingStore := List (String × String)

/-- `DatabaseManager.add_mapping`: `INSERT OR REPLACE INTO
mappings(command_text, action_name)`.  Because of the UNIQUE constraint on
`command_text`, REPLACE first deletes any row with the same `command_text`
and then inserts the new row. -/
def add_mapping (store : MappingStore) (commandText actionName : String) : MappingStore :=
  (store.filter (fun r => r.1 ≠ commandText)) ++ [(commandText, actionName)]

/-- The resolved form of a stored mapping as the rest of the code consumes it.
`DatabaseManager.get_mapping` returns a dict that always has `action_name`
and, when `action_name` contains a colon, also `module`, `function`, `args`
and `kwargs`.  Downstream code only reads the latter four keys, always with a
falsy default (`mapping.get("module") or ""`), so a missing key and an empty
value are observationally equal; we model both as the empty value. -/
structure Mapping where
  module : String
  function : String
  args : List String
  kwargs : List (String × String)
deriving DecidableEq, Repr

/-- Python `s.split(sep, 1)` on a one-character separator, restricted to the
question the code asks: the part before the first occurrence and, when the
separator occurs, the part after it.  Defined on the character list of the
string. -/
def breakOnChar (sep : Char) : List Char → List Char × Option (List Char)
  | [] => ([], none)
  | c :: cs =>
    if c = sep then ([], some cs)
    else
      let r := breakOnChar sep cs
      (c :: r.1, r.2)

/-- `action_name.split(":", 1)` together with the `":" in action_name` test of
`DatabaseManager.get_mapping`. -/
def splitActionName (actionName : String) : String × Option String :=
  let r := breakOnChar ':' actionName.data
  (⟨r.1⟩, r.2.map (fun cs => ⟨cs⟩))

/-- Splitting a character list at every separator, keeping empty segments
(the behavior of Python `str.split(sep)`). -/
def splitCharsAux (p : Char → Bool) : List Char → List Char → List (List Char)
  | acc, [] => [acc.reverse]
  | acc, c :: cs =>
    if p c then acc.reverse :: splitCharsAux p [] cs
    else splitCharsAux p (c :: acc) cs

/-- Python `s.split(sep)` for a one-character separator. -/
def pySplitChar (sep : Char) (s : String) : List String :=
  (splitCharsAux (fun x => x = sep) [] s.data).map (fun l => ⟨l⟩)

/-- Python `str.split()` with no argument: split on whitespace runs, dropping
empty parts. -/
def pySplitWs (s : String) : List String :=
  ((splitCharsAux Char.isWhitespace [] s.data).map (fun l => (⟨l⟩ : String))).filter
    (fun t => t ≠ "")

/-- Python `str.strip()`: remove leading and trailing whitespace. -/
def pyStrip (s : String) : String :=
  ⟨((s.data.dropWhile Char.isWhitespace).reverse.dropWhile Char.isWhitespace).reverse⟩

/-- Python `str.lower()` (restricted to ASCII case mapping). -/
def pyLower (s : String) : String := ⟨s.data.map Char.toLower⟩

/-- Python `s.startswith(pre)`. -/
def pyStartsWith (s pre : String) : Bool := pre.data.isPrefixOf s.data

/-- `DatabaseManager.get_mapping`: select the unique row for `command_text`;
when the stored `action_name` contains a colon, split it on the first colon
into `module` and `function`; `args` and `kwargs` are always returned empty
(the table has no columns for them). -/
def get_mapping (store : MappingStore) (commandText : String) : Option Mapping :=
  match store.find? (fun r => r.1 = commandText) with
  | none => none
  | some row =>
    let actionName := row.2
    match splitActionName actionName with
    | (module, some function) => some ⟨module, function, [], []⟩
    | (_, none) => some ⟨"", "", [], []⟩

/-- `DatabaseManager.upsert_mapping`: builds
`action_name = f"{module}:{function}" if module and function else function or module or ""`
and delegates to `add_mapping`.  The `args`/`kwargs` parameters are accepted
and dropped. -/
def upsert_mapping (store : MappingStore) (command module function : String)
    (args : List String) (kwargs : List (String × String)) : MappingStore :=
  let actionName :=
    if module ≠ "" ∧ function ≠ "" then module ++ ":" ++ function
    else if function ≠ "" then function
    else module
  add_mapping store command actionName

/-- Sorted insertion of a row by its command text. -/
def insertByText (row : String × String) : MappingStore → MappingStore
  | [] => [row]
  | r :: rs => if row.1 ≤ r.1 then row :: r :: rs else r :: insertByText row rs

/-- `DatabaseManager.list_mappings`: all rows ordered by `command_text` ASC
(modeled by insertion sort). -/
def list_mappings (store : MappingStore) : MappingStore :=
  store.foldr insertByText []

/-- `DatabaseManager.list_commands`: the command texts of `list_mappings`. -/
def list_commands (store : MappingStore) : List String :=
  (list_mappings store).map (fun r => r.1)

/-! ## Undo/redo history engine (src/backend/services/undo_redo.py) -/

/-- The `ActionRecord` dataclass. -/
structure ActionRecord where
  functionPath : String
  args : List String
  kwargs : List (String × String)
  reversible : Bool
  undoFunctionPath : Option String
deriving DecidableEq, Repr

/-- The state owned by one `UndoRedoManager` plus the `history` table it
appends to through `db.log_history` (rows `(command, action)`, most recent
first).  Python appends to and pops from the end of its lists; we keep the
top of each stack at the head of the list. -/
structure URState where
  executed : List ActionRecord
  undone : List ActionRecord
  history : List (String × String)
deriving DecidableEq, Repr

/-- The result dict returned by `undo_last` / `redo_last`.  The
`"Nothing to undo"` / `"Nothing to redo"` dicts carry no `function_executed`
key; key absence and value `None` are modeled alike as `none`. -/
structure UndoResult where
  status : String
  message : String
  functionExecuted : Option String
deriving DecidableEq, Repr

/-- One dynamic call performed by the engine: function path, positional and
keyword arguments. -/
structure Invocation where
  functionPath : String
  args : List String
  kwargs : List (String × String)
deriving DecidableEq, Repr

/-- The observable behavior of `importlib` plus the imported functions:
`none` means the module import or the attribute lookup failed,
`some (.ok ())` a call that returns normally, `some (.error msg)` a call that
raises with message `msg`. -/
abbrev FuncEnv := String → Option (Except String Unit)

/-- `UndoRedoManager._import_function`: rejects an empty path or a path
without a dot, then imports the module and looks the function up. -/
def importFunction (env : FuncEnv) (path : String) : Option (Except String Unit) :=
  if path = "" ∨ ¬ path.data.contains '.' then none else env path

/-- `UndoRedoManager.record_action`: build the record, push it on the
executed stack, clear the undone stack, and log an EXECUTE history event. -/
def recordAction (s : URState) (functionPath : String) (args : List String)
    (kwargs : List (String × String)) (reversible : Bool)
    (undoFunctionPath : Option String) : URState :=
  { executed := ⟨functionPath, args, kwargs, reversible, undoFunctionPath⟩ :: s.executed
    undone := []
    history := (functionPath, "EXECUTE") :: s.history }

/-- Python truthiness of `record.undo_function_path`: `None` and the empty
string are both falsy. -/
def truthyOptStr (o : Option String) : Bool :=
  match o with
  | none => false
  | some s => s ≠ ""

/-- `UndoRedoManager.undo_last`.  Returns the result dict, the next state and
the list of dynamic calls performed.  The record is moved to the undone stack
before reversibility is examined, so the move happens in every non-empty
case. -/
def undoLast (env : FuncEnv) (s : URState) : UndoResult × URState × List Invocation :=
  match s.executed with
  | [] => (⟨"error", "Nothing to undo", none⟩, s, [])
  | r :: rest =>
    let s1 : URState :=
      { executed := rest
        undone := r :: s.undone
        history := (r.functionPath, "UNDO") :: s.history }
    if ¬ r.reversible ∨ ¬ truthyOptStr r.undoFunctionPath then
      (⟨"error", "Action is not reversible", none⟩, s1, [])
    else
      let up := r.undoFunctionPath.getD ""
      match importFunction env up with
      | none => (⟨"error", "Undo function not found", none⟩, s1, [])
      | some (.ok _) => (⟨"success", "Undo executed", some up⟩, s1, [⟨up, r.args, r.kwargs⟩])
      | some (.error msg) => (⟨"error", msg, none⟩, s1, [⟨up, r.args, r.kwargs⟩])

/-- `UndoRedoManager.redo_last`: pop the top undone record back onto the
executed stack, log a REDO event, and re-invoke the original function with
the original arguments. -/
def redoLast (env : FuncEnv) (s : URState) : UndoResult × URState × List Invocation :=
  match s.undone with
  | [] => (⟨"error", "Nothing to redo", none⟩, s, [])
  | r :: rest =>
    let s1 : URState :=
      { executed := r :: s.executed
        undone := rest
        history := (r.functionPath, "REDO") :: s.history }
    match importFunction env r.functionPath with
    | none => (⟨"error", "Function not found for redo", none⟩, s1, [])
    | some (.ok _) =>
      (⟨"success", "Redo executed", some r.functionPath⟩, s1, [⟨r.functionPath, r.args, r.kwargs⟩])
    | some (.error msg) => (⟨"error", msg, none⟩, s1, [⟨r.functionPath, r.args, r.kwargs⟩])

/-! ## Adaptive mapper (src/backend/core/mapper.py) -/

/-- A `CommandRegistry` entry: `{"module_path": ..., "function_name": ...}`
(src/backend/core/registry.py, `_register_module_functions`). -/
structure RegistryEntry where
  modulePath : String
  functionName : String
deriving DecidableEq, Repr

/-- Errors surfaced by the resolver; `runtimeError` is Python's
`RuntimeError(msg)` and `attributeError` an `AttributeError` for a missing
attribute. -/
inductive PyError where
  | runtimeError (msg : String)
  | attributeError (name : String)
deriving DecidableEq, Repr

/-- Everything `AdaptiveMapper` consumes from outside its own logic:
the mapping store, the synonym index from `config/commands.json`, the
external `fuzzywuzzy.fuzz.token_set_ratio` scorer (an integer 0–100),
the optional injected intent recognizer (`none` in a slot means the
callback raised), the discovered registry (`none` if `CommandRegistry`
could not be constructed), the confirmation callback, the behavior of
`re.search` for the URL pattern of `_enrich_mapping_with_args`, whether the
`Learner` class could be imported, and the mapper's `commands_config_path`
(always a non-empty string: the constructor falls back to the default
config path). -/
structure MapperEnv where
  store : MappingStore
  commandsIndex : List (String × List String)
  fuzz : String → String → Nat
  recognizer : Option (String → Option (String × Rat))
  registry : Option (List (String × RegistryEntry))
  confirm : String → Option Bool
  urlSearch : String → Option String
  learnerImportOk : Bool
  commandsConfigPath : String

/-- Python `s.split(" ", 1)[1]` when it exists: the part of `s` after the
first space character, `none` when `s` contains no space. -/
def afterFirstSpace (s : String) : Option String :=
  ((breakOnChar ' ' s.data).2).map (fun cs => ⟨cs⟩)

/-- The loop of `AdaptiveMapper._recognize_or_match` over the synonym index:
for each `(action_key, synonyms)` entry score
`max(fuzz.token_set_ratio(text, c) for c in [action_key] + synonyms)` and
keep the first strictly best key (`best_key` starts as `None`, `best_score`
as `0`, updated only on `score > best_score`). -/
def fuzzyBestKey (env : MapperEnv) (text : String) : Option String × Nat :=
  env.commandsIndex.foldl
    (fun acc kv =>
      let score := ((kv.1 :: kv.2).map (fun c => env.fuzz text c)).foldl Nat.max 0
      if score > acc.2 then (some kv.1, score) else acc)
    ((none : Option String), 0)

/-- `AdaptiveMapper._recognize_or_match`: prefer the injected intent
recognizer when it returns a truthy key; otherwise fuzzy-match the synonym
index and normalize the best 0–100 score to a rational confidence
(`best_score / 100.0`); a falsy best key yields `(None, 0.0)`. -/
def recognize_or_match (env : MapperEnv) (text : String) : Option String × Rat :=
  let fuzzy :=
    let b := fuzzyBestKey env text
    match b.1 with
    | some k => if k = "" then ((none : Option String), (0 : Rat)) else (some k, (b.2 : Rat) / 100)
    | none => ((none : Option String), (0 : Rat))
  match env.recognizer with
  | none => fuzzy
  | some r =>
    match r text with
    | none => fuzzy
    | some (k, c) => if k ≠ "" then (some k, c) else fuzzy

/-- `AdaptiveMapper._map_action_via_registry` for the `CommandRegistry`
schema: take the registry entry for the key, set
`module = module_path.split(".")[-1]` and `function = function_name`, and
refuse empty names.  The produced mapping carries empty `args`/`kwargs`. -/
def map_action_via_registry (env : MapperEnv) (actionKey : String) : Option Mapping :=
  match env.registry with
  | none => none
  | some reg =>
    match reg.find? (fun e => e.1 = actionKey) with
    | none => none
    | some entry =>
      let module := ((pySplitChar '.' entry.2.modulePath).getLast?).getD ""
      let function := entry.2.functionName
      if module = "" ∨ function = "" then none
      else some ⟨module, function, [], []⟩

/-- `AdaptiveMapper._enrich_mapping_with_args`.  Strips `module` and
`function`, keeps non-empty `args` as they are, and otherwise synthesizes
positional arguments from the original text by action-specific rules.  The
whole body is wrapped in `try/except` returning the original mapping; the
only reachable failure is the `IndexError` of `text.split(" ", 1)[1]` in the
`apps` branch when the text has several whitespace-separated words but no
space character. -/
def enrich_mapping_with_args (env : MapperEnv) (textCommand : String) (m : Mapping) : Mapping :=
  let module := pyStrip m.module
  let function := pyStrip m.function
  let args := m.args
  let kwargs := m.kwargs
  if args ≠ [] then ⟨module, function, args, kwargs⟩
  else
    let text := pyStrip textCommand
    let lower := pyLower text
    if module = "apps" ∧ (function = "open_app" ∨ function = "close_app") then
      if (pySplitWs lower).length ≥ 2 then
        match afterFirstSpace text with
        | none => m
        | some rest =>
          let target := pyStrip rest
          if target ≠ "" then ⟨module, function, [target], kwargs⟩
          else ⟨module, function, args, kwargs⟩
      else ⟨module, function, args, kwargs⟩
    else if module = "browser" ∧ function = "open_url" then
      match env.urlSearch text with
      | some u => ⟨module, function, [u], kwargs⟩
      | none =>
        if pyStartsWith lower "open " ∧ (pySplitWs lower).length ≥ 2 then
          let token := (pySplitWs lower).getD 1 ""
          ⟨module, function, ["https://" ++ token ++ ".com"], kwargs⟩
        else ⟨module, function, args, kwargs⟩
    else if module = "browser" ∧ function = "search_google" then
      let q :=
        if pyStartsWith lower "search " then
          match afterFirstSpace text with
          | some rest => if pyStrip rest ≠ "" then pyStrip rest else text
          | none => text
        else text
      ⟨module, function, [q], kwargs⟩
    else if module = "youtube" ∧ (function = "play_video" ∨ function = "search_and_play") then
      let q :=
        if text.data.contains ' ' then pyStrip ((afterFirstSpace text).getD "") else text
      ⟨module, function, [q], kwargs⟩
    else ⟨module, function, args, kwargs⟩

/-- The accumulating loop of `AdaptiveMapper._match_existing_db_command` over
the stored command texts: keep the first strictly best `(text, score)`. -/
def bestDbMatch (env : MapperEnv) (text : String) : Option String × Nat :=
  (list_commands env.store).foldl
    (fun acc c =>
      let score := env.fuzz text c
      if score > acc.2 then (some c, score) else acc)
    ((none : Option String), 0)

/-- `AdaptiveMapper._match_existing_db_command`: fuzzy-match the input against
all stored command texts; when the best text is truthy and its score is at
least 80 (on the 0–100 scale), return that stored mapping as-is. -/
def match_existing_db_command (env : MapperEnv) (text : String) : Option Mapping :=
  let commands := list_commands env.store
  if commands = [] then none
  else
    match bestDbMatch env text with
    | (some bestText, bestScore) =>
      if bestText ≠ "" ∧ bestScore ≥ 80 then get_mapping env.store bestText else none
    | (none, _) => none

/-! ## Learner (src/backend/core/learner.py) -/

/-- The names bound in the body of `class Learner`
(src/backend/core/learner.py, lines 16–311).  The helpers
`_validate_mapping`, `_default_commands_path`, `_load_commands_index` and
`_import_database` are NOT among them: in the source they sit at lines
402–449, indented inside the module-level function `clear_command_mapping`,
so they are local definitions of that function and never become attributes
of the class. -/
def learnerClassAttrs : List String :=
  ["__init__", "handle_unknown", "_suggest_action", "_map_action_via_registry",
   "_persist_mapping", "_list_registry_actions", "_print_box",
   "_prompt_module_choice", "_list_module_functions", "_prompt_function_choice",
   "_interactive_manual_map"]

/-- Attribute lookup on a `Learner` instance falls back to the class
attributes. -/
def learnerHasAttr (name : String) : Bool := learnerClassAttrs.contains name

/-- `Learner.__init__`: after storing the callbacks it evaluates
`commands_config_path or self._default_commands_path()` and then
`self._db = self._import_database()`.  The first lookup of a helper that is
not a class attribute raises `AttributeError`, so construction never
succeeds — hence the success type `Empty`. -/
def learnerInit (commandsConfigPath : String) : Except PyError Empty :=
  if commandsConfigPath = "" ∧ ¬ learnerHasAttr "_default_commands_path" then
    .error (.attributeError "_default_commands_path")
  else if ¬ learnerHasAttr "_import_database" then
    .error (.attributeError "_import_database")
  else .error (.runtimeError "unreachable")

/-! ## Resolution pipeline (`AdaptiveMapper.resolve_command`) -/

/-- `AdaptiveMapper.resolve_command`:
1. exact store lookup, enriched on hit;
2. recognizer/fuzzy best action key; at confidence ≥ 0.8 map it through the
   registry and return enriched on success;
3. fuzzy match against stored command texts, returning a stored mapping
   directly;
4. confirmation prompt for the best key (any confidence), mapping through
   the registry on affirmation;
5. delegate to the `Learner`.  Constructing the learner raises (see
   `learnerInit`), which `resolve_command` converts into
   `RuntimeError("Adaptive learner unavailable")`. -/
def resolve_command (env : MapperEnv) (text : String) : Except PyError Mapping :=
  match get_mapping env.store text with
  | some m => .ok (enrich_mapping_with_args env text m)
  | none =>
    let rm := recognize_or_match env text
    let viaSynonym : Option Mapping :=
      match rm.1 with
      | some k =>
        if rm.2 ≥ (8 : Rat) / 10 then
          (map_action_via_registry env k).map (fun m => enrich_mapping_with_args env text m)
        else none
      | none => none
    match viaSynonym with
    | some m => .ok m
    | none =>
      match match_existing_db_command env text with
      | some m => .ok m
      | none =>
        let confirmed : Option Mapping :=
          match rm.1 with
          | some k =>
            match env.confirm k with
            | some true =>
              (map_action_via_registry env k).map (fun m => enrich_mapping_with_args env text m)
            | _ => none
          | none => none
        match confirmed with
        | some m => .ok m
        | none =>
          if ¬ env.learnerImportOk then
            .error (.runtimeError "Learner is not available to handle unknown commands")
          else
            match learnerInit env.commandsConfigPath with
            | .error _ => .error (.runtimeError "Adaptive learner unavailable")
            | .ok e => e.elim

/-! ## Command handler (src/backend/core/command_handler.py) -/

/-- What `CommandHandler.execute` consumes: the mapper facade, dynamic
module import and attribute lookup of the automation module, the permissions
(`none` if unavailable; `some enf` where `enf user ref = false` means
`enforce_permission` raised `PermissionError`), and the wrapped action call
(`.error msg` means the call raised with message `msg`). -/
structure ExecEnv where
  resolve : String → Except PyError Mapping
  moduleFound : String → Bool
  hasFunction : String → String → Bool
  permissions : Option (String → String → Bool)
  call : String → String → List String → List (String × String) → Except String Unit

/-- The structured response of `CommandHandler.execute`
(the `result` value of a successful call is not modeled). -/
structure ExecResponse where
  status : String
  message : String
  functionExecuted : Option String
deriving DecidableEq, Repr

/-- `str(error)` of a resolver exception, used in the
`"Failed to resolve command: ..."` message. -/
def PyError.message : PyError → String
  | .runtimeError msg => msg
  | .attributeError name => name

/-- The permission gate of `CommandHandler.execute`: when the permission
module is available, `enforce_permission(user_id, f"{module}.{function}")`
must return normally. -/
def permitted (env : ExecEnv) (userId commandRef : String) : Bool :=
  match env.permissions with
  | some enf => enf userId commandRef
  | none => true

/-- `CommandHandler.execute`: resolve the text, validate the mapping shape,
load the automation module and look the function up, enforce permissions
(any exception there yields the `"Permission denied"` response), call the
function, and only after a normal return record the action for undo/redo.
The messages of the import and attribute errors stand in for the Python
`str(error)` texts. -/
def CommandHandler.execute (env : ExecEnv) (undoRedoAvailable : Bool) (userId : String)
    (textCommand : String) (s : URState) : ExecResponse × URState :=
  match env.resolve textCommand with
  | .error e => (⟨"error", "Failed to resolve command: " ++ e.message, none⟩, s)
  | .ok mapping =>
    let moduleName := mapping.module
    let functionName := mapping.function
    if moduleName = "" ∨ functionName = "" then
      (⟨"error", "Mapping must contain module and function", none⟩, s)
    else if ¬ env.moduleFound moduleName then
      (⟨"error", "No module named " ++ moduleName, none⟩, s)
    else if ¬ env.hasFunction moduleName functionName then
      (⟨"error", "Function " ++ functionName ++ " not found in module " ++ moduleName, none⟩, s)
    else
      let commandRef := moduleName ++ "." ++ functionName
      if ¬ permitted env userId commandRef then
        (⟨"error", "Permission denied", none⟩, s)
      else
        match env.call moduleName functionName mapping.args mapping.kwargs with
        | .error msg => (⟨"error", msg, none⟩, s)
        | .ok _ =>
          let s1 :=
            if undoRedoAvailable then
              recordAction s commandRef mapping.args mapping.kwargs false none
            else s
          (⟨"success", "Command executed successfully", some commandRef⟩, s1)

/-- The response of `CommandHandler.undo` / `CommandHandler.redo`: the
top-level `function_executed` field holds whatever `undo_last`/`redo_last`
returned — the whole result dict. -/
structure HandlerUndoResponse where
  status : String
  message : String
  functionExecuted : Option UndoResult
deriving DecidableEq, Repr

/-- `CommandHandler.undo`: raise only if the undo/redo service module could
not be imported; otherwise wrap the `undo_last` result dict into a success
response. -/
def CommandHandler.undo (undoRedoAvailable : Bool) (env : FuncEnv) (s : URState) :
    HandlerUndoResponse × URState :=
  if ¬ undoRedoAvailable then
    (⟨"error", "Undo/redo service not available", none⟩, s)
  else
    let r := undoLast env s
    (⟨"success", "Undo executed", some r.1⟩, r.2.1)

/-- `CommandHandler.redo`: same shape as `CommandHandler.undo` over
`redo_last`. -/
def CommandHandler.redo (undoRedoAvailable : Bool) (env : FuncEnv) (s : URState) :
    HandlerUndoResponse × URState :=
  if ¬ undoRedoAvailable then
    (⟨"error", "Undo/redo service not available", none⟩, s)
  else
    let r := redoLast env s
    (⟨"success", "Redo executed", some r.1⟩, r.2.1)

deriving instance DecidableEq for Except

/-! ## Helper lemmas -/

/-- The state transition of `undo_last` does not depend on reversibility or
on the outcome of the inverse call: the popped record always moves to the
undone stack. -/
theorem undoLast_state (env : FuncEnv) (s : URState) (r : ActionRecord)
    (rest : List ActionRecord) (h : s.executed = r :: rest) :
    (undoLast env s).2.1 =
      ⟨rest, r :: s.undone, (r.functionPath, "UNDO") :: s.history⟩ := by
  unfold undoLast
  rw [h]
  simp only
  split
  · rfl
  · cases importFunction env (r.undoFunctionPath.getD "") with
    | none => rfl
    | some e => cases e <;> rfl

/-- A mapping returned by `get_mapping` always has empty `args` and `kwargs`:
the `mappings` table has no columns for them. -/
theorem get_mapping_args_empty (store : MappingStore) (t : String) (m : Mapping)
    (h : get_mapping store t = some m) : m.args = [] ∧ m.kwargs = [] := by
  unfold get_mapping at h
  cases hf : store.find? (fun r => r.1 = t) with
  | none => rw [hf] at h; exact absurd h (by simp)
  | some row =>
    rw [hf] at h
    simp only at h
    cases hs : (splitActionName row.2).2 with
    | none =>
      rw [show splitActionName row.2 = ((splitActionName row.2).1, none) from by
        rw [← hs]] at h
      simp only [Option.some.injEq] at h
      rw [← h]
      exact ⟨rfl, rfl⟩
    | some f =>
      rw [show splitActionName row.2 = ((splitActionName row.2).1, some f) from by
        rw [← hs]] at h
      simp only [Option.some.injEq] at h
      rw [← h]
      exact ⟨rfl, rfl⟩

/-- `_enrich_mapping_with_args` either returns its input unchanged (the
`except` branch) or a mapping whose module and function are the trimmed
stored ones and whose kwargs are the stored ones. -/
theorem enrich_shape (env : MapperEnv) (text : String) (m : Mapping) :
    enrich_mapping_with_args env text m = m ∨
      ((enrich_mapping_with_args env text m).module = pyStrip m.module ∧
       (enrich_mapping_with_args env text m).function = pyStrip m.function ∧
       (enrich_mapping_with_args env text m).kwargs = m.kwargs) := by
  unfold enrich_mapping_with_args
  dsimp only
  repeat' split
  all_goals first
    | exact Or.inl rfl
    | exact Or.inr ⟨rfl, rfl, rfl⟩

/-- `Learner.__init__` raises on every input. -/
theorem learnerInit_always_fails (p : String) : ∃ e, learnerInit p = .error e := by
  unfold learnerInit
  split_ifs <;> exact ⟨_, rfl⟩

/-- `breakOnChar` on a list that starts with a separator-free prefix followed
by the separator splits exactly there. -/
theorem breakOnChar_append (sep : Char) (l rest : List Char) (h : sep ∉ l) :
    breakOnChar sep (l ++ sep :: rest) = (l, some rest) := by
  induction l with
  | nil => simp [breakOnChar]
  | cons c cs ih =>
    rw [List.cons_append]
    unfold breakOnChar
    have hc : ¬ c = sep := fun e => h (e ▸ List.mem_cons_self c cs)
    rw [if_neg hc, ih (fun hm => h (List.mem_cons_of_mem _ hm))]

/-! ## Theorems about the claims -/

/-- A concrete mapper environment with one stored mapping, used for claim C1. -/
def envC1 : MapperEnv :=
  { store := [("open chrome", "apps:open_app")]
    commandsIndex := []
    fuzz := fun _ _ => 0
    recognizer := none
    registry := none
    confirm := fun _ => some false
    urlSearch := fun _ => none
    learnerImportOk := true
    commandsConfigPath := "config/commands.json" }

/-- Claim C1 is false as stated: for the stored mapping
`"open chrome" → apps:open_app`, `resolve_command` does not return the stored
Mapping unchanged — the stored `args` are `[]`, but the exact-hit path runs
argument enrichment, which fills in `args = ["chrome"]`. -/
theorem C1_counterexample :
    get_mapping envC1.store "open chrome" = some ⟨"apps", "open_app", [], []⟩ ∧
    resolve_command envC1 "open chrome" = .ok ⟨"apps", "open_app", ["chrome"], []⟩ ∧
    Mapping.mk "apps" "open_app" ["chrome"] [] ≠ Mapping.mk "apps" "open_app" [] [] := by
  decide

/-- Claim C1 (amended): when the store holds an exact Mapping for the input
text, `resolve_command` returns that stored Mapping passed through argument
enrichment, taking precedence over synonym re-derivation (the result holds
for every synonym index, recognizer and confirmation callback).  The stored
Mapping always has empty `args` and `kwargs`; the returned mapping is either
the stored one unchanged or has the stored module and function up to
whitespace trimming, the stored kwargs, and args possibly synthesized by the
extraction rules. -/
theorem C1_exact_mapping_precedence (env : MapperEnv) (text : String) (m : Mapping)
    (h : get_mapping env.store text = some m) :
    resolve_command env text = .ok (enrich_mapping_with_args env text m) ∧
    m.args = [] ∧ m.kwargs = [] ∧
    (enrich_mapping_with_args env text m = m ∨
      ((enrich_mapping_with_args env text m).module = pyStrip m.module ∧
       (enrich_mapping_with_args env text m).function = pyStrip m.function ∧
       (enrich_mapping_with_args env text m).kwargs = m.kwargs)) := by
  obtain ⟨ha, hk⟩ := get_mapping_args_empty env.store text m h
  refine ⟨?_, ha, hk, enrich_shape env text m⟩
  unfold resolve_command
  rw [h]

/-- Witness for C1: the amended statement applied to `envC1` and the stored
mapping for `"open chrome"`. -/
theorem C1_exact_mapping_precedence_witness :
    resolve_command envC1 "open chrome"
        = .ok (enrich_mapping_with_args envC1 "open chrome" ⟨"apps", "open_app", [], []⟩) ∧
    ([] : List String) = [] ∧ ([] : List (String × String)) = [] ∧
    (enrich_mapping_with_args envC1 "open chrome" ⟨"apps", "open_app", [], []⟩
        = ⟨"apps", "open_app", [], []⟩ ∨
      ((enrich_mapping_with_args envC1 "open chrome" ⟨"apps", "open_app", [], []⟩).module
          = pyStrip "apps" ∧
       (enrich_mapping_with_args envC1 "open chrome" ⟨"apps", "open_app", [], []⟩).function
          = pyStrip "open_app" ∧
       (enrich_mapping_with_args envC1 "open chrome" ⟨"apps", "open_app", [], []⟩).kwargs
          = [])) :=
  C1_exact_mapping_precedence envC1 "open chrome" ⟨"apps", "open_app", [], []⟩ (by decide)

/-- Claim C7 is false as stated: upserting a mapping with a non-empty args
template does not round-trip the template — `get_mapping` returns empty
`args` and `kwargs` because the table only stores `module:function`. -/
theorem C7_counterexample :
    get_mapping (upsert_mapping [] "t" "apps" "open_app" ["chrome"] [("tab", "new")]) "t"
      = some ⟨"apps", "open_app", [], []⟩ ∧
    ([] : List String) ≠ ["chrome"] ∧
    ([] : List (String × String)) ≠ [("tab", "new")] := by
  decide

/-- Claim C7 (amended): the upsert-then-get round-trip preserves the module
and function (for a non-empty module without a colon and a non-empty
function), but the args and kwargs templates are dropped: `get_mapping`
returns them empty. -/
theorem C7_roundtrip_module_function (s : MappingStore) (t module function : String)
    (args : List String) (kwargs : List (String × String))
    (Hm : module ≠ "") (Hf : function ≠ "") (Hc : ':' ∉ module.data) :
    get_mapping (upsert_mapping s t module function args kwargs) t
      = some ⟨module, function, [], []⟩ := by
  unfold upsert_mapping
  rw [if_pos ⟨Hm, Hf⟩]
  unfold get_mapping add_mapping
  rw [List.find?_append]
  have h1 : (s.filter (fun r => r.1 ≠ t)).find? (fun r => r.1 = t) = none := by
    rw [List.find?_eq_none]
    intro x hx
    simp only [List.mem_filter, decide_not] at hx
    simpa using hx.2
  rw [h1]
  have h2 : (module ++ ":" ++ function).data = module.data ++ ':' :: function.data := by
    rw [String.data_append, String.data_append, List.append_assoc]
    rfl
  have h3 : splitActionName (module ++ ":" ++ function) = (module, some function) := by
    unfold splitActionName
    rw [h2, breakOnChar_append ':' module.data function.data Hc]
    cases module
    cases function
    rfl
  simp [h3]

/-- Witness for C7: the amended round-trip at a concrete store and mapping. -/
theorem C7_roundtrip_module_function_witness :
    get_mapping (upsert_mapping [("x", "y:z")] "open chrome" "apps" "open_app"
        ["chrome"] [("tab", "new")]) "open chrome"
      = some ⟨"apps", "open_app", [], []⟩ :=
  C7_roundtrip_module_function [("x", "y:z")] "open chrome" "apps" "open_app"
    ["chrome"] [("tab", "new")] (by decide) (by decide) (by decide)

/-- Claim C3: every `record_action` pushes the new record onto the executed
stack and empties the undone stack; consequently after `record(A)`,
`record(B)`, `undoLast()`, `record(C)` the undone stack is empty and a
subsequent `redoLast()` reports the soft failure `"Nothing to redo"` without
changing the state. -/
theorem C3_record_invalidates_redo (env : FuncEnv) (s0 : URState) (A B C : ActionRecord) :
    (∀ s p a k rev u, (recordAction s p a k rev u).executed
        = ActionRecord.mk p a k rev u :: s.executed
      ∧ (recordAction s p a k rev u).undone = []) ∧
    (let s1 := recordAction s0 A.functionPath A.args A.kwargs A.reversible A.undoFunctionPath
     let s2 := recordAction s1 B.functionPath B.args B.kwargs B.reversible B.undoFunctionPath
     let s3 := (undoLast env s2).2.1
     let s4 := recordAction s3 C.functionPath C.args C.kwargs C.reversible C.undoFunctionPath
     s4.undone = [] ∧ (redoLast env s4).1 = ⟨"error", "Nothing to redo", none⟩
       ∧ (redoLast env s4).2.1 = s4) := by
  refine ⟨fun s p a k rev u => ⟨rfl, rfl⟩, ?_, ?_, ?_⟩
  · rfl
  · rfl
  · rfl

/-- Claim C4: undoing a record that is not reversible (flag `false`, with any
inverse reference) or that is reversible but has no inverse reference yields
the soft `"Action is not reversible"` result while the record still moves from
the executed stack to the undone stack; a following `redoLast()` pops it back
onto the executed stack and re-invokes the original function with the original
arguments. -/
theorem C4_non_reversible_undo_then_redo (env : FuncEnv) (s0 : URState)
    (p : String) (a : List String) (k : List (String × String)) (u : Option String)
    (Himp : importFunction env p = some (.ok ())) :
    (let s1 := recordAction s0 p a k false u
     let r2 := undoLast env s1
     let r3 := redoLast env r2.2.1
     r2.1 = ⟨"error", "Action is not reversible", none⟩ ∧
     r2.2.1.executed = s0.executed ∧
     r2.2.1.undone = [⟨p, a, k, false, u⟩] ∧
     r3.1 = ⟨"success", "Redo executed", some p⟩ ∧
     r3.2.1.executed = ⟨p, a, k, false, u⟩ :: s0.executed ∧
     r3.2.1.undone = [] ∧
     r3.2.2 = [⟨p, a, k⟩]) ∧
    (let s1 := recordAction s0 p a k true none
     (undoLast env s1).1 = ⟨"error", "Action is not reversible", none⟩ ∧
     (undoLast env s1).2.1.executed = s0.executed ∧
     (undoLast env s1).2.1.undone = [⟨p, a, k, true, none⟩]) := by
  constructor
  · simp only [recordAction, undoLast, redoLast, truthyOptStr, Himp]
    refine ⟨rfl, rfl, rfl, ?_⟩
    simp [Himp]
  · simp [recordAction, undoLast, truthyOptStr]

/-- A function environment in which exactly `apps.open_app` is importable
and calling it succeeds. -/
def envFnC4 : FuncEnv :=
  fun p => if p = "apps.open_app" then some (.ok ()) else none

/-- Witness for C4: the non-reversible undo/redo round trip at the record
`apps.open_app ["chrome"]` starting from the empty state. -/
theorem C4_non_reversible_undo_then_redo_witness :
    (let s1 := recordAction ⟨[], [], []⟩ "apps.open_app" ["chrome"] [] false none
     let r2 := undoLast envFnC4 s1
     let r3 := redoLast envFnC4 r2.2.1
     r2.1 = ⟨"error", "Action is not reversible", none⟩ ∧
     r2.2.1.executed = [] ∧
     r2.2.1.undone = [⟨"apps.open_app", ["chrome"], [], false, none⟩] ∧
     r3.1 = ⟨"success", "Redo executed", some "apps.open_app"⟩ ∧
     r3.2.1.executed = [⟨"apps.open_app", ["chrome"], [], false, none⟩] ∧
     r3.2.1.undone = [] ∧
     r3.2.2 = [⟨"apps.open_app", ["chrome"], []⟩]) ∧
    (let s1 := recordAction ⟨[], [], []⟩ "apps.open_app" ["chrome"] [] true none
     (undoLast envFnC4 s1).1 = ⟨"error", "Action is not reversible", none⟩ ∧
     (undoLast envFnC4 s1).2.1.executed = [] ∧
     (undoLast envFnC4 s1).2.1.undone = [⟨"apps.open_app", ["chrome"], [], true, none⟩]) :=
  C4_non_reversible_undo_then_redo envFnC4 ⟨[], [], []⟩ "apps.open_app" ["chrome"] [] none
    (by decide)

/-- Claim C8: `INSERT OR REPLACE` upsert semantics — after upserting a text,
exactly one row for that text is in the table, and upserting the same text
twice leaves exactly one row carrying the second action name. -/
theorem C8_upsert_unique_row (s : MappingStore) (t a1 a2 : String) :
    ((add_mapping s t a1).filter (fun r => r.1 = t)) = [(t, a1)] ∧
    ((add_mapping (add_mapping s t a1) t a2).filter (fun r => r.1 = t)) = [(t, a2)] := by
  have hdrop : ∀ (l : MappingStore) (a : String),
      ((l.filter (fun r => r.1 ≠ t)).filter (fun r => r.1 = t)) = [] := by
    intro l a
    rw [List.filter_filter]
    apply List.filter_eq_nil_iff.mpr
    intro x hx
    simp
  have hone : ∀ (l : MappingStore) (a : String),
      ((add_mapping l t a).filter (fun r => r.1 = t)) = [(t, a)] := by
    intro l a
    unfold add_mapping
    rw [List.filter_append, hdrop l a]
    simp
  exact ⟨hone s a1, hone (add_mapping s t a1) a2⟩

/-- A concrete mapper environment whose synonym scorer always answers 80. -/
def env80 : MapperEnv :=
  { store := []
    commandsIndex := [("apps:open_app", ["open chrome", "launch chrome"])]
    fuzz := fun _ _ => 80
    recognizer := none
    registry := some [("apps:open_app", ⟨"backend.automation.apps", "open_app"⟩)]
    confirm := fun _ => some false
    urlSearch := fun _ => none
    learnerImportOk := true
    commandsConfigPath := "config/commands.json" }

/-- The same environment with the scorer answering 79. -/
def env79 : MapperEnv := { env80 with fuzz := fun _ _ => 79 }

/-- Claim C2: with no exact stored Mapping, a best-match confidence of exactly
0.80 auto-accepts — the action key is mapped via the registry and returned
(enriched) with no confirmation prompt — while 0.79 does not auto-accept and
control falls through to the confirmation/Learner stages (here, with a
refusing confirmation callback, all the way to the Learner). -/
theorem C2_threshold_boundary (env env' : MapperEnv) (text k k' : String) (m : Mapping)
    (H1 : get_mapping env.store text = none)
    (H2a : env.recognizer = none)
    (H2b : fuzzyBestKey env text = (some k, 80))
    (Hk : k ≠ "")
    (H3 : map_action_via_registry env k = some m)
    (H1' : get_mapping env'.store text = none)
    (H2a' : env'.recognizer = none)
    (H2b' : fuzzyBestKey env' text = (some k', 79))
    (Hk' : k' ≠ "")
    (H4' : match_existing_db_command env' text = none)
    (H5' : env'.confirm = fun _ => some false)
    (H6' : env'.learnerImportOk = true) :
    resolve_command env text = .ok (enrich_mapping_with_args env text m) ∧
    resolve_command env' text = .error (.runtimeError "Adaptive learner unavailable") := by
  have hrm : recognize_or_match env text = (some k, (80 : Rat) / 100) := by
    simp only [recognize_or_match, H2a, H2b, if_neg Hk]
    norm_num
  have hrm' : recognize_or_match env' text = (some k', (79 : Rat) / 100) := by
    simp only [recognize_or_match, H2a', H2b', if_neg Hk']
    norm_num
  constructor
  · have hge : ((80 : Rat) / 100) ≥ (8 : Rat) / 10 := by norm_num
    simp only [resolve_command, H1, hrm, H3, if_pos hge]
    rfl
  · have hlt : ¬ ((79 : Rat) / 100 ≥ (8 : Rat) / 10) := by norm_num
    obtain ⟨e, he⟩ := learnerInit_always_fails env'.commandsConfigPath
    simp only [resolve_command, H1', hrm', H4', H5', H6', he, if_neg hlt]
    simp

/-- Witness for C2: at the concrete environments `env80` and `env79` the
input `"open chrome"` auto-accepts at confidence 0.80 and reaches the
Learner stage at 0.79. -/
theorem C2_threshold_boundary_witness :
    resolve_command env80 "open chrome"
        = .ok (enrich_mapping_with_args env80 "open chrome" ⟨"apps", "open_app", [], []⟩) ∧
    resolve_command env79 "open chrome"
        = .error (.runtimeError "Adaptive learner unavailable") :=
  C2_threshold_boundary env80 env79 "open chrome" "apps:open_app" "apps:open_app"
    ⟨"apps", "open_app", [], []⟩ (by decide) rfl (by decide) (by decide) (by decide)
    (by decide) rfl (by decide) (by decide) (by decide) rfl (by decide)

/-- Claim C9: when the exact lookup misses and the synonym confidence stays
below 0.8, but the fuzzy match over previously stored command texts finds a
(truthy) best text with score at least 80 on the 0–100 scale, the resolver
returns that stored command's mapping directly — for every confirmation
callback, i.e. without consulting confirmation or the Learner. -/
theorem C9_stored_text_fuzzy_reuse (env : MapperEnv) (text bestText : String)
    (score : Nat) (m : Mapping)
    (H1 : get_mapping env.store text = none)
    (H2 : (recognize_or_match env text).2 < (8 : Rat) / 10)
    (H3 : bestDbMatch env text = (some bestText, score))
    (H4 : bestText ≠ "") (H5 : 80 ≤ score)
    (H6 : get_mapping env.store bestText = some m) :
    resolve_command env text = .ok m ∧
    (∀ c, resolve_command { env with confirm := c } text = .ok m) := by
  have core : ∀ (e : MapperEnv),
      get_mapping e.store text = none →
      (recognize_or_match e text).2 < (8 : Rat) / 10 →
      bestDbMatch e text = (some bestText, score) →
      get_mapping e.store bestText = some m →
      resolve_command e text = .ok m := by
    intro e h1 h2 h3 h6
    have hne : ¬ (list_commands e.store = []) := by
      intro hnil
      have : bestDbMatch e text = ((none : Option String), 0) := by
        unfold bestDbMatch
        rw [hnil]
        rfl
      rw [this] at h3
      exact absurd h3 (by simp)
    have hmatch : match_existing_db_command e text = some m := by
      simp only [match_existing_db_command, if_neg hne, h3, if_pos (And.intro H4 H5), h6]
    have hsyn : ¬ ((recognize_or_match e text).2 ≥ (8 : Rat) / 10) := not_le.mpr h2
    cases hrm : (recognize_or_match e text).1 with
    | none => simp only [resolve_command, h1, hrm, hmatch]
    | some k => simp only [resolve_command, h1, hrm, if_neg hsyn, hmatch]
  exact ⟨core env H1 H2 H3 H6, fun c => core { env with confirm := c } H1 H2 H3 H6⟩

/-- A stored mapping plus a scorer that rates every stored text 85. -/
def envC9 : MapperEnv :=
  { store := [("open chrome", "apps:open_app")]
    commandsIndex := []
    fuzz := fun _ _ => 85
    recognizer := none
    registry := none
    confirm := fun _ => some false
    urlSearch := fun _ => none
    learnerImportOk := true
    commandsConfigPath := "config/commands.json" }

/-- Witness for C9: `"open chrom"` is not stored, has no synonym match, and
fuzzily reuses the stored `"open chrome"` mapping, for both a refusing and an
affirming confirmation callback. -/
theorem C9_stored_text_fuzzy_reuse_witness :
    resolve_command envC9 "open chrom" = .ok ⟨"apps", "open_app", [], []⟩ ∧
    resolve_command { envC9 with confirm := fun _ => some true } "open chrom"
      = .ok ⟨"apps", "open_app", [], []⟩ :=
  ⟨(C9_stored_text_fuzzy_reuse envC9 "open chrom" "open chrome" 85
      ⟨"apps", "open_app", [], []⟩ (by decide)
      (by rw [show recognize_or_match envC9 "open chrom" = (none, (0 : Rat)) from rfl]
          norm_num)
      (by decide) (by decide) (by decide) (by decide)).1,
   (C9_stored_text_fuzzy_reuse envC9 "open chrom" "open chrome" 85
      ⟨"apps", "open_app", [], []⟩ (by decide)
      (by rw [show recognize_or_match envC9 "open chrom" = (none, (0 : Rat)) from rfl]
          norm_num)
      (by decide) (by decide) (by decide) (by decide)).2 (fun _ => some true)⟩

/-- Claim C5: `CommandHandler.execute` records an action in the history
engine only after the permission gate granted it and the wrapped call
returned without raising: a permission denial or a raising call leaves the
undo/redo state untouched, and a successful call records exactly the
executed action. -/
theorem C5_record_only_after_success (env : ExecEnv) (userId text : String)
    (s : URState) (m : Mapping)
    (Hres : env.resolve text = .ok m)
    (Hm : m.module ≠ "") (Hf : m.function ≠ "")
    (Hmod : env.moduleFound m.module = true)
    (Hfn : env.hasFunction m.module m.function = true) :
    (permitted env userId (m.module ++ "." ++ m.function) = false →
      CommandHandler.execute env true userId text s
        = (⟨"error", "Permission denied", none⟩, s)) ∧
    (∀ msg, permitted env userId (m.module ++ "." ++ m.function) = true →
      env.call m.module m.function m.args m.kwargs = .error msg →
      CommandHandler.execute env true userId text s = (⟨"error", msg, none⟩, s)) ∧
    (permitted env userId (m.module ++ "." ++ m.function) = true →
      env.call m.module m.function m.args m.kwargs = .ok () →
      CommandHandler.execute env true userId text s
        = (⟨"success", "Command executed successfully",
             some (m.module ++ "." ++ m.function)⟩,
           recordAction s (m.module ++ "." ++ m.function) m.args m.kwargs false none)) := by
  have hshape : ¬ (m.module = "" ∨ m.function = "") := by
    rintro (h | h)
    · exact Hm h
    · exact Hf h
  refine ⟨?_, ?_, ?_⟩
  · intro hp
    simp [CommandHandler.execute, Hres, hshape, Hmod, Hfn, hp]
  · intro msg hp hcall
    simp [CommandHandler.execute, Hres, hshape, Hmod, Hfn, hp, hcall]
  · intro hp hcall
    simp [CommandHandler.execute, Hres, hshape, Hmod, Hfn, hp, hcall]

/-- A concrete execution environment: resolution yields `apps.open_app`, the
module and function exist, permission is granted exactly to `"admin"`, and
the call itself succeeds. -/
def envC5 : ExecEnv :=
  { resolve := fun _ => .ok ⟨"apps", "open_app", ["chrome"], []⟩
    moduleFound := fun _ => true
    hasFunction := fun _ _ => true
    permissions := some (fun user _ => user = "admin")
    call := fun _ _ _ _ => .ok () }

/-- Witness for C5: the statement instantiated at `envC5`, user `"guest"`,
the empty history state and the resolved `apps.open_app` mapping. -/
theorem C5_record_only_after_success_witness :
    (permitted envC5 "guest" ("apps" ++ "." ++ "open_app") = false →
      CommandHandler.execute envC5 true "guest" "open chrome" ⟨[], [], []⟩
        = (⟨"error", "Permission denied", none⟩, ⟨[], [], []⟩)) ∧
    (∀ msg, permitted envC5 "guest" ("apps" ++ "." ++ "open_app") = true →
      envC5.call "apps" "open_app" ["chrome"] [] = .error msg →
      CommandHandler.execute envC5 true "guest" "open chrome" ⟨[], [], []⟩
        = (⟨"error", msg, none⟩, ⟨[], [], []⟩)) ∧
    (permitted envC5 "guest" ("apps" ++ "." ++ "open_app") = true →
      envC5.call "apps" "open_app" ["chrome"] [] = .ok () →
      CommandHandler.execute envC5 true "guest" "open chrome" ⟨[], [], []⟩
        = (⟨"success", "Command executed successfully", some ("apps" ++ "." ++ "open_app")⟩,
           recordAction ⟨[], [], []⟩ ("apps" ++ "." ++ "open_app") ["chrome"] [] false none)) :=
  C5_record_only_after_success envC5 "guest" "open chrome" ⟨[], [], []⟩
    ⟨"apps", "open_app", ["chrome"], []⟩ rfl (by decide) (by decide) rfl rfl

/-- Claim C6 is refuted by the code: the `Learner` helper methods
`_validate_mapping`, `_default_commands_path`, `_load_commands_index` and
`_import_database` are misindented inside `clear_command_mapping`, so
`Learner.__init__` raises `AttributeError` on every input and the resolver's
Learner stage always fails with `RuntimeError("Adaptive learner unavailable")`
— no Mapping is ever written for the unknown text, and `handle_unknown` is
never even reached. -/
theorem C6_learner_construction_always_fails (env : MapperEnv) (text : String)
    (H1 : get_mapping env.store text = none)
    (H2 : (recognize_or_match env text).1 = none)
    (H3 : match_existing_db_command env text = none)
    (H4 : env.learnerImportOk = true) :
    resolve_command env text = .error (.runtimeError "Adaptive learner unavailable") ∧
    learnerHasAttr "_validate_mapping" = false ∧
    learnerHasAttr "_import_database" = false ∧
    (∀ p, ∃ e, learnerInit p = .error e) := by
  refine ⟨?_, by decide, by decide, learnerInit_always_fails⟩
  obtain ⟨e, he⟩ := learnerInit_always_fails env.commandsConfigPath
  simp only [resolve_command, H1, H2, H3, H4, he]
  simp

/-- The empty environment: no stored mappings, no synonyms, no registry. -/
def envC6 : MapperEnv :=
  { store := []
    commandsIndex := []
    fuzz := fun _ _ => 0
    recognizer := none
    registry := none
    confirm := fun _ => some false
    urlSearch := fun _ => none
    learnerImportOk := true
    commandsConfigPath := "config/commands.json" }

/-- Witness for C6: resolving the unknown command `"foo bar"` in the empty
environment reaches the Learner stage and fails with
`"Adaptive learner unavailable"`. -/
theorem C6_learner_construction_always_fails_witness :
    resolve_command envC6 "foo bar" = .error (.runtimeError "Adaptive learner unavailable") ∧
    learnerHasAttr "_validate_mapping" = false ∧
    learnerHasAttr "_import_database" = false ∧
    (∀ p, ∃ e, learnerInit p = .error e) :=
  C6_learner_construction_always_fails envC6 "foo bar" (by decide) (by decide)
    (by decide) (by decide)

/-- Claim C10: when the undo/redo service module is available,
`CommandHandler.undo` and `CommandHandler.redo` always answer with top-level
status `"success"` and place the underlying result dict — even a soft error
such as `"Nothing to undo"` / `"Nothing to redo"` — in the response's
`function_executed` field. -/
theorem C10_handler_wraps_soft_errors (env : FuncEnv) (s : URState) :
    (CommandHandler.undo true env s).1 = ⟨"success", "Undo executed", some (undoLast env s).1⟩ ∧
    (CommandHandler.redo true env s).1 = ⟨"success", "Redo executed", some (redoLast env s).1⟩ ∧
    (CommandHandler.undo true env ⟨[], [], []⟩).1.functionExecuted
      = some ⟨"error", "Nothing to undo", none⟩ ∧
    (CommandHandler.redo true env ⟨[], [], []⟩).1.functionExecuted
      = some ⟨"error", "Nothing to redo", none⟩ :=
  ⟨rfl, rfl, rfl, rfl⟩

end Deskmate
